import Mathlib

/-!
Verification of `api/check-ban.js` (CheckBanWa): a shallow embedding of the
number normalizer, response classifier, rate limiter, probe executor with
retries, and the HTTP handler, together with theorems about the behaviours
the design document ascribes to them.

Strings are embedded as Lean `String` / `List Char`; JavaScript `Math.random`
is abstracted as a stream `rand : Nat → Nat` consumed one draw per
`pickRandom` call; the HTTP transport is an oracle `Nat → Except String
HttpResp` indexed by the attempt number; `Date.now`-derived seconds are a
`Nat` parameter.
-/

namespace CheckBanWa

/-! ### Small JavaScript-semantics helpers -/

/-- JavaScript `a || b` on strings: the empty string is falsy. -/
def jsOr (a b : String) : String := if a = "" then b else a

/-- JavaScript `trim()`: drop whitespace from both ends of a character list. -/
def trimChars (l : List Char) : List Char :=
  ((l.dropWhile Char.isWhitespace).reverse.dropWhile Char.isWhitespace).reverse

/-- String form of JavaScript `trim()`. -/
def jsTrim (s : String) : String := ⟨trimChars s.data⟩

/-- JavaScript `split(sep)` for a one-character separator (the source only splits on
`"\n"` and `","`): JavaScript semantics, so splitting the empty string
yields `[""]`. -/
def splitOnChar (sep : Char) : List Char → List (List Char)
  | [] => [[]]
  | c :: t =>
    let r := splitOnChar sep t
    if c = sep then [] :: r
    else
      match r with
      | [] => [[c]]
      | h :: t2 => (c :: h) :: t2

/-- String form of `split(sep)`. -/
def splitStr (sep : Char) (s : String) : List String :=
  (splitOnChar sep s.data).map fun l => ⟨l⟩

/-! ### NumberNormalizer (`normalizeNumber`, part_000 lines 60-78) -/

/-- The phone number split produced by `normalizeNumber`: `{ cc, in }`.
(`in` is a Lean keyword, so the second field is called `inPart`, the name the
source uses for the local variable holding it.) -/
structure PhoneNumber where
  cc : String
  inPart : String
deriving DecidableEq, Repr

/-- The digit candidate examined by `normalizeNumber`: the input trimmed and
with one leading `+` removed (`const s = input.trim(); const plus =
s.startsWith("+") ? s.slice(1) : s`). -/
def digitsOf (input : String) : List Char :=
  let s := trimChars input.data
  match s with
  | '+' :: rest => rest
  | _ => s

/-- The function `normalizeNumber(input)` (lines 60-78).  Null unless the candidate is
6-15 decimal digits; the country code is the first 2 digits when the length
is at least 8, otherwise the first digit; leading zeros are stripped from it
(`cc.replace(/^0+/, "") || plus.slice(0,1)`); the subscriber part is
`plus.slice(cc.length)` for the *stripped* `cc`. -/
def normalizeNumber (input : String) : Option PhoneNumber :=
  let plus := digitsOf input
  if 6 ≤ plus.length && plus.length ≤ 15 && plus.all Char.isDigit then
    let cc0 := if plus.length < 8 then plus.take 1 else plus.take 2
    let cc1 := cc0.dropWhile (· == '0')
    let cc := if cc1.isEmpty then plus.take 1 else cc1
    let inPart := plus.drop cc.length
    if inPart.isEmpty then none
    else some ⟨⟨cc⟩, ⟨inPart⟩⟩
  else none

/-- Modelled from the spec's invariant wording (not from the source): "the
normalized input with leading zeros stripped from the country-code segment",
where the country-code segment is the extracted 2- or 1-digit prefix. -/
def specStripSegment (plus : List Char) : List Char :=
  let k := if plus.length < 8 then 1 else 2
  (plus.take k).dropWhile (· == '0') ++ plus.drop k

/-! ### ResponseClassifier (body of `doRegisterCheck`, part_000 lines 141-162)

The source tests three regular expressions against the lowercased body.  Each
is an alternation of string literals, except the success markers, which also
use `.*` (any run of characters other than a line terminator, per JavaScript
`.`).  We embed literal alternations as substring search and `p.*q` as
`matchGap`. -/

/-- Lowercasing `text.toLowerCase()` restricted to per-character lowering. -/
def lowerStr (s : String) : String := ⟨s.data.map Char.toLower⟩

/-- JavaScript line terminators, which `.` does not match. -/
def lineTerm (c : Char) : Bool :=
  c == '\n' || c == '\r' || c == (Char.ofNat 0x2028) || c == (Char.ofNat 0x2029)

/-- Does the literal `p` occur as a contiguous substring of `s`? -/
def hasSub (p : List Char) : List Char → Bool
  | [] => p.isEmpty
  | c :: t => p.isPrefixOf (c :: t) || hasSub p t

/-- Does `s` start with a run of non-line-terminator characters followed by an
occurrence of `q`?  (The `.*q$`-free tail of matching `p.*q`.) -/
def gapThen (q : List Char) : List Char → Bool
  | [] => q.isEmpty
  | c :: t => q.isPrefixOf (c :: t) || (!lineTerm c && gapThen q t)

/-- Does the regular expression `p.*q` (JavaScript semantics, unanchored)
match somewhere in `s`? -/
def matchGap (p q : List Char) : List Char → Bool
  | [] => p.isEmpty && q.isEmpty
  | c :: t => (p.isPrefixOf (c :: t) && gapThen q ((c :: t).drop p.length)) || matchGap p q t

/-- Banned markers `/banned|blocked|account suspended|account banned|forbidden/` (line 144). -/
def bannedRe (s : List Char) : Bool :=
  hasSub "banned".data s || hasSub "blocked".data s ||
  hasSub "account suspended".data s || hasSub "account banned".data s ||
  hasSub "forbidden".data s

/-- Success markers `/code.*ok|status.*ok|\"status\"\:\"ok\"|\"code\"\:\"0\"/`
(line 149). -/
def okRe (s : List Char) : Bool :=
  matchGap "code".data "ok".data s || matchGap "status".data "ok".data s ||
  hasSub "\"status\":\"ok\"".data s || hasSub "\"code\":\"0\"".data s

/-- Markers for 4xx responses `/forbidden|unauthorized|auth_failure|auth_failed|banned/`
(line 156). -/
def authRe (s : List Char) : Bool :=
  hasSub "forbidden".data s || hasSub "unauthorized".data s ||
  hasSub "auth_failure".data s || hasSub "auth_failed".data s ||
  hasSub "banned".data s

/-- The value `doRegisterCheck` produces: either a classified response
`{ banned, raw, status }` or the retry-exhaustion value
`{ error: "network_error", message }`. -/
inductive RawResult where
  | classified (banned : Bool) (raw : String) (status : Nat)
  | failure (error : String) (message : String)
deriving DecidableEq, Repr

/-- A syntactically valid HTTP response as seen by the classifier. -/
structure HttpResp where
  status : Nat
  text : String
deriving DecidableEq, Repr

/-- The classification logic of `doRegisterCheck` (lines 141-162): banned
markers first, then success markers, then the 4xx-with-auth-keyword rule,
falling through to `banned: false` with the raw body preserved. -/
def classifyResp (status : Nat) (text : String) : RawResult :=
  let low := (lowerStr text).data
  if bannedRe low then .classified true text status
  else if okRe low then .classified false text status
  else if 400 ≤ status && status < 500 then
    if authRe low then .classified true text status
    else .classified false text status
  else .classified false text status

/-! ### RateLimiter (`allowedByRateLimit`, part_000 lines 35-54)

The process-wide `rateMap` (a JavaScript `Map` from IP to `{count,
windowStart}`) is embedded as an association list; `rec.count += 1` (an
in-place mutation) becomes re-binding the key. -/

/-- A per-caller window record `{ count, windowStart }`. -/
structure RateRec where
  count : Nat
  windowStart : Nat
deriving DecidableEq, Repr

/-- The `rateMap`. -/
def RateMap := List (String × RateRec)
deriving DecidableEq

/-- The empty `rateMap` the process starts with. -/
def RateMap.empty : RateMap := []

/-- Lookup `rateMap.get(ip)`. -/
def mapGet : RateMap → String → Option RateRec
  | [], _ => none
  | (k, v) :: t, key => if k = key then some v else mapGet t key

/-- Update `rateMap.set(ip, v)` (also used for the in-place `rec.count += 1`). -/
def mapSet : RateMap → String → RateRec → RateMap
  | [], key, v => [(key, v)]
  | (k, w) :: t, key, v =>
      if k = key then (key, v) :: t else (k, w) :: mapSet t key v

/-- The gate `allowedByRateLimit(ip)` (lines 35-54), with the current Unix second and
the map passed explicitly.  `windowLen` is the hardcoded 60; `limit` is
`DEFAULT_RATE_LIMIT`.  `cur - rec.windowStart >= windowLen` is JavaScript
number subtraction; truncated `Nat` subtraction selects the same branch since
a negative difference is below 60 exactly when the truncated one is. -/
def allowedByRateLimit (limit : Nat) (ip : String) (cur : Nat) (m : RateMap) :
    Bool × RateMap :=
  let windowLen := 60
  match mapGet m ip with
  | none => (true, mapSet m ip ⟨1, cur⟩)
  | some rec =>
    if windowLen ≤ cur - rec.windowStart then (true, mapSet m ip ⟨1, cur⟩)
    else if rec.count < limit then (true, mapSet m ip ⟨rec.count + 1, rec.windowStart⟩)
    else (false, m)

/-- A sequence of `allowedByRateLimit` calls for one key at the given times,
returning the list of verdicts and the final map. -/
def runCalls (limit : Nat) (ip : String) : List Nat → RateMap → List Bool × RateMap
  | [], m => ([], m)
  | t :: ts, m =>
    let step := allowedByRateLimit limit ip t m
    let rest := runCalls limit ip ts step.2
    (step.1 :: rest.1, rest.2)

/-! ### IdentityRotator, ProxyPool, RequestBuilder (lines 14-23, 56-58, 80-92) -/

/-- The pool `UA_LIST` (lines 14-20). -/
def UA_LIST : List String :=
  ["WhatsApp/2.23.8.76 Android/13 Device/Pixel",
   "WhatsApp/2.22.18 Android/12 Device/Generic",
   "WhatsApp/2.21.23 Android/11 Device/Samsung",
   "Mozilla/5.0 (Linux; Android 11) AppleWebKit/537.36 (KHTML, like Gecko) WhatsApp/2.21.23"]

/-- The pool `MCC_OPTIONS` (line 22). -/
def MCC_OPTIONS : List String := ["510", "440", "510", "520", "310", "404", "505"]

/-- The pool `MNC_OPTIONS` (line 23). -/
def MNC_OPTIONS : List String := ["00", "01", "10", "20", "70", "01"]

/-- Uniform choice `pickRandom(arr)` = `arr[Math.floor(Math.random() * arr.length)]`, with
`Math.random()` abstracted as the draw `rand ctr`: the index is a uniform
value reduced modulo the pool size. -/
def pickRandom (rand : Nat → Nat) (ctr : Nat) (arr : List String) : String :=
  arr.getD (rand ctr % arr.length) ""

/-- The builder `buildFormBody` (lines 80-92): the `x-www-form-urlencoded` pairs `cc`,
`in`, `method`, `mcc`, `mnc` (the latter two only when truthy) and the random
auxiliary field `r` in `[0, 1000000)`. -/
def buildFormBody (cc inPart method mcc mnc : String) (r : Nat) : String :=
  "cc=" ++ cc ++ "&in=" ++ inPart ++ "&method=" ++ method ++
  (if mcc = "" then "" else "&mcc=" ++ mcc) ++
  (if mnc = "" then "" else "&mnc=" ++ mnc) ++
  "&r=" ++ toString r

/-! ### ProbeExecutor (`doRegisterCheck`, part_000 lines 94-173)

One call = one attempt: it draws `ua`, `mcc`, `mnc` and the body's `r` (four
consecutive `Math.random()` draws), sends the request, classifies a
successful response, and on a transport error retries itself with
`retries + 1` and the same `proxyUrl` while `retries < MAX_RETRIES`.  The
jittered backoff consumes one further draw, so a retried attempt advances the
draw counter by 5.  The transport is the oracle `transport : Nat → Except
String HttpResp` indexed by the attempt number (`Except.error e` is a
timeout / connection / proxy failure with `String(err) = e`).  Alongside the
source's return value we record the per-attempt identity trace, which the
source determines but does not store. -/

/-- What one attempt of `doRegisterCheck` put on the wire: the rotated
identity, the form body, and the proxy handed to the agent. -/
structure AttemptInfo where
  ua : String
  mcc : String
  mnc : String
  body : String
  proxy : Option String
deriving DecidableEq, Repr

/-- The identity and body drawn at draw-counter position `ctr` for a probe of
`numberObj` through `proxyUrl` (lines 95-98). -/
def attemptAt (rand : Nat → Nat) (numberObj : PhoneNumber) (proxyUrl : Option String)
    (ctr : Nat) : AttemptInfo :=
  let ua := pickRandom rand ctr UA_LIST
  let mcc := pickRandom rand (ctr + 1) MCC_OPTIONS
  let mnc := pickRandom rand (ctr + 2) MNC_OPTIONS
  ⟨ua, mcc, mnc,
   buildFormBody numberObj.cc numberObj.inPart "sms" mcc mnc (rand (ctr + 3) % 1000000),
   proxyUrl⟩

/-- The recursion of `doRegisterCheck`, realized structurally on the
remaining retry budget `fuel = MAX_RETRIES - retries` (the source recursion
terminates because `retries` grows toward `MAX_RETRIES`; `retries <
MAX_RETRIES` holds exactly when the remaining budget is positive). -/
def doRegisterCheckAux (rand : Nat → Nat)
    (transport : Nat → Except String HttpResp)
    (numberObj : PhoneNumber) (proxyUrl : Option String) :
    Nat → Nat → Nat → RawResult × List AttemptInfo
  | fuel, retries, ctr =>
    let att := attemptAt rand numberObj proxyUrl ctr
    match transport retries with
    | .ok resp => (classifyResp resp.status resp.text, [att])
    | .error err =>
      match fuel with
      | f + 1 =>
        let rest := doRegisterCheckAux rand transport numberObj proxyUrl f
          (retries + 1) (ctr + 5)
        (rest.1, att :: rest.2)
      | 0 => (.failure "network_error" err, [att])

/-- The probe `doRegisterCheck(numberObj, proxyUrl, retries)` (lines 94-173), paired
with the trace of attempts it makes.  `maxRetries` is `MAX_RETRIES`. -/
def doRegisterCheck (maxRetries : Nat) (rand : Nat → Nat)
    (transport : Nat → Except String HttpResp)
    (numberObj : PhoneNumber) (proxyUrl : Option String)
    (retries ctr : Nat) : RawResult × List AttemptInfo :=
  doRegisterCheckAux rand transport numberObj proxyUrl (maxRetries - retries)
    retries ctr

/-! ### Handler (part_000 lines 175-224)

The hosting framework's request is abstracted to the fields the handler
reads: the method, the `x-forwarded-for` header, the socket address, and the
parsed JSON body's `number` / `phone` fields.  The environment holds the
values read from `process.env`.  The response is either an error JSON
(`status`, `error`, optional `message`, optional `details`) or the success
JSON of line 216-223. -/

/-- The parts of the incoming request the handler reads. -/
structure Req where
  method : String
  xForwardedFor : Option String
  remoteAddr : Option String
  bodyNumber : Option String
  bodyPhone : Option String
deriving DecidableEq, Repr

/-- The environment configuration (`process.env`): `PROXIES`,
`RATE_LIMIT_PER_MIN` and `MAX_RETRIES` already parsed, and `EXPOSE_RAW`. -/
structure Env where
  proxies : String
  rateLimit : Nat
  maxRetries : Nat
  exposeRaw : Option String
deriving DecidableEq, Repr

/-- The handler's reply. -/
inductive HResp where
  | err (status : Nat) (error : String) (message : Option String)
      (details : Option RawResult)
  | ok (number : String) (normalized : PhoneNumber) (banned : Bool)
      (statusCode : Nat) (raw : Option String) (proxy : String)
deriving DecidableEq, Repr

/-- The caller key (line 181):
`req.headers["x-forwarded-for"]?.split(",")[0].trim() || req.socket.remoteAddress || "unknown"`. -/
def ipOf (req : Req) : String :=
  let fwd := match req.xForwardedFor with
    | some s => jsTrim ((splitStr ',' s).headD "")
    | none => ""
  jsOr fwd (jsOr (req.remoteAddr.getD "") "unknown")

/-- The number field `(body.number || body.phone || "").toString().trim()` (line 187). -/
def numberOf (req : Req) : String :=
  jsTrim (jsOr (req.bodyNumber.getD "") (jsOr (req.bodyPhone.getD "") ""))

/-- The proxy pool parsed from `PROXIES` (lines 199-200): split on newlines,
trimmed, falsy entries dropped. -/
def proxyList (env : Env) : List String :=
  ((splitStr '\n' env.proxies).map jsTrim).filter (fun s => ¬ s = "")

/-- The endpoint `handler(req, res)` (lines 175-224) as a function of the request, the
current Unix second, and the rate map, returning the reply and the updated
map.  Randomness: when the proxy pool is non-empty the proxy pick consumes
draw 0 and `doRegisterCheck` starts at draw 1; with an empty pool it starts
at draw 0, mirroring the `Math.random()` call order. -/
def handler (env : Env) (rand : Nat → Nat)
    (transport : Nat → Except String HttpResp)
    (req : Req) (now : Nat) (m : RateMap) : HResp × RateMap :=
  if ¬ req.method = "POST" then
    (.err 405 "Method not allowed" none none, m)
  else
    let gate := allowedByRateLimit env.rateLimit (ipOf req) now m
    if ¬ gate.1 then
      (.err 429 "rate_limited"
        (some ("Too many requests (limit " ++ toString env.rateLimit ++ "/min)"))
        none, gate.2)
    else
      let number := numberOf req
      if number = "" then
        (.err 400 "number_required"
          (some "Send \x7b number: \"+6281234...\" \x7d in request body") none, gate.2)
      else
        match normalizeNumber number with
        | none =>
          (.err 400 "invalid_number"
            (some "Number must be digits with country code (E.164 recommended).")
            none, gate.2)
        | some normalized =>
          let proxies := proxyList env
          let proxyToUse : Option String :=
            if 0 < proxies.length then some (pickRandom rand 0 proxies) else none
          let ctr0 := if 0 < proxies.length then 1 else 0
          let result := (doRegisterCheck env.maxRetries rand transport normalized
            proxyToUse 0 ctr0).1
          match result with
          | .failure e msg =>
            (.err 502 "proxy_or_network_failed" none (some (.failure e msg)), gate.2)
          | .classified b raw st =>
            (.ok number normalized b st
              (if env.exposeRaw = some "1" then some raw else none)
              (if proxyToUse.isSome then "used" else "none"), gate.2)

/-! ## Theorems — NumberNormalizer -/

/-- Membership-transport for `List.all`. -/
lemma all_of_subset {p : Char → Bool} {l₁ l₂ : List Char} (h : l₁ ⊆ l₂)
    (ha : l₂.all p = true) : l₁.all p = true :=
  List.all_eq_true.mpr fun x hx => List.all_eq_true.mp ha x (h hx)

/-- The country-code computation of `normalizeNumber` (lines 71-74), factored
out so that theorems can speak about it. -/
def ccData (plus : List Char) : List Char :=
  let cc0 := if plus.length < 8 then plus.take 1 else plus.take 2
  let cc1 := cc0.dropWhile (· == '0')
  if cc1.isEmpty then plus.take 1 else cc1

lemma ccData_length_le (plus : List Char) : (ccData plus).length ≤ 2 := by
  have htake : ∀ n, n ≤ 2 → (plus.take n).length ≤ 2 := by
    intro n hn
    rw [List.length_take]
    omega
  have hdw : ∀ n, n ≤ 2 → ((plus.take n).dropWhile (· == '0')).length ≤ 2 :=
    fun n hn => le_trans (List.dropWhile_sublist _).length_le (htake n hn)
  simp only [ccData]
  by_cases h8 : plus.length < 8
  · rw [if_pos h8]
    split
    · exact htake 1 (by omega)
    · exact hdw 1 (by omega)
  · rw [if_neg h8]
    split
    · exact htake 1 (by omega)
    · exact hdw 2 (by omega)

lemma ccData_length_pos (plus : List Char) (h : plus ≠ []) :
    0 < (ccData plus).length := by
  have h1 : 0 < (plus.take 1).length := by
    rw [List.length_take]
    have := List.length_pos.mpr h
    omega
  simp only [ccData]
  by_cases h8 : plus.length < 8 <;> [rw [if_pos h8]; rw [if_neg h8]] <;> split
  · exact h1
  · rename_i hne
    rw [List.length_pos]
    intro hnil
    exact hne (by simp [hnil])
  · exact h1
  · rename_i hne
    rw [List.length_pos]
    intro hnil
    exact hne (by simp [hnil])

lemma ccData_subset (plus : List Char) : ccData plus ⊆ plus := by
  have hsub : ∀ n, ((plus.take n).dropWhile (· == '0')) ⊆ plus :=
    fun n x hx => List.take_subset _ _ ((List.dropWhile_sublist _).subset hx)
  simp only [ccData]
  by_cases h8 : plus.length < 8 <;> [rw [if_pos h8]; rw [if_neg h8]] <;> split
  · exact List.take_subset _ _
  · exact hsub 1
  · exact List.take_subset _ _
  · exact hsub 2

/-- For a 6-to-15-digit candidate, `normalizeNumber` succeeds and returns
the country code `ccData plus` and the remainder `plus.drop (ccData plus).length`. -/
lemma normalizeNumber_spec (input : String)
    (hd : (digitsOf input).all Char.isDigit = true)
    (h6 : 6 ≤ (digitsOf input).length) (h15 : (digitsOf input).length ≤ 15) :
    normalizeNumber input =
      some ⟨⟨ccData (digitsOf input)⟩,
            ⟨(digitsOf input).drop (ccData (digitsOf input)).length⟩⟩ := by
  have hcc2 := ccData_length_le (digitsOf input)
  have hdrop : 0 < ((digitsOf input).drop (ccData (digitsOf input)).length).length := by
    rw [List.length_drop]
    omega
  have hguard : (6 ≤ (digitsOf input).length && (digitsOf input).length ≤ 15 &&
      (digitsOf input).all Char.isDigit) = true := by
    simp [hd, h6, h15]
  have hne : ¬ ((digitsOf input).drop (ccData (digitsOf input)).length).isEmpty = true := by
    intro hempty
    rw [List.isEmpty_iff] at hempty
    rw [hempty] at hdrop
    simp at hdrop
  simp only [normalizeNumber]
  rw [if_pos hguard]
  show (if ((digitsOf input).drop (ccData (digitsOf input)).length).isEmpty = true then none
        else some (⟨⟨ccData (digitsOf input)⟩,
          ⟨(digitsOf input).drop (ccData (digitsOf input)).length⟩⟩ : PhoneNumber)) = _
  rw [if_neg hne]

/-- When the first digit is not `'0'`, no stripping happens and the country
code is exactly the extracted prefix. -/
lemma ccData_of_head_ne_zero (a : Char) (t : List Char) (ha : ¬ a = '0') :
    ccData (a :: t) = (a :: t).take (if (a :: t).length < 8 then 1 else 2) := by
  have hstep : ∀ l : List Char, (a :: l).dropWhile (· == '0') = a :: l := by
    intro l
    rw [List.dropWhile_cons_of_neg]
    simp [ha]
  simp only [ccData]
  by_cases h8 : (a :: t).length < 8
  · rw [if_pos h8, if_pos h8]
    rw [show (a :: t).take 1 = a :: t.take 0 from rfl, hstep]
    simp
  · rw [if_neg h8, if_neg h8]
    rw [show (a :: t).take 2 = a :: t.take 1 from rfl, hstep]
    simp

/-- When the first digit is not `'0'`, the split reassembles the digit
sequence exactly. -/
lemma ccData_concat (plus : List Char) (h6 : 6 ≤ plus.length)
    (hhead : plus.head? ≠ some '0') :
    ccData plus ++ plus.drop (ccData plus).length = plus := by
  cases plus with
  | nil => simp at h6
  | cons a t =>
    have ha : ¬ a = '0' := by
      intro h
      exact hhead (by simp [h])
    have hlen : 6 ≤ t.length + 1 := by simpa using h6
    rw [ccData_of_head_ne_zero a t ha]
    set k := if (a :: t).length < 8 then 1 else 2 with hk
    have hkle : k ≤ (a :: t).length := by
      have hcons : (a :: t).length = t.length + 1 := rfl
      rw [hk]
      split <;> omega
    rw [List.length_take, Nat.min_eq_left hkle, List.take_append_drop]

/-- C1 (amended): for every input whose trimmed, `+`-stripped form is 6-15
decimal digits, `normalizeNumber` returns a non-null pair of non-empty digit
strings whose subscriber part is the digit sequence with its first
`cc.length` digits removed; the concatenation `cc ++ in` equals the digit
sequence whenever the extracted country-code prefix has no leading zero.
(When the prefix begins with `'0'`, the stripped zeros shift the split and
digits of the original prefix reappear in the subscriber part, so the
claimed reconstruction fails — see `normalize_concat_counterexample`.) -/
theorem normalize_valid_amended (input : String)
    (hd : (digitsOf input).all Char.isDigit = true)
    (h6 : 6 ≤ (digitsOf input).length) (h15 : (digitsOf input).length ≤ 15) :
    ∃ nb : PhoneNumber, normalizeNumber input = some nb ∧
      ¬ nb.cc = "" ∧ ¬ nb.inPart = "" ∧
      nb.cc.data.all Char.isDigit = true ∧ nb.inPart.data.all Char.isDigit = true ∧
      nb.inPart.data = (digitsOf input).drop nb.cc.data.length ∧
      ((digitsOf input).head? ≠ some '0' →
        nb.cc.data ++ nb.inPart.data = digitsOf input) := by
  have hne : digitsOf input ≠ [] := by
    intro h
    rw [h] at h6
    simp at h6
  have hccpos := ccData_length_pos (digitsOf input) hne
  have hcc2 := ccData_length_le (digitsOf input)
  refine ⟨_, normalizeNumber_spec input hd h6 h15, ?_, ?_, ?_, ?_, rfl, ?_⟩
  · intro h
    have : ccData (digitsOf input) = [] := congrArg String.data h
    rw [this] at hccpos
    simp at hccpos
  · intro h
    have : (digitsOf input).drop (ccData (digitsOf input)).length = [] :=
      congrArg String.data h
    have := congrArg List.length this
    rw [List.length_drop] at this
    simp at this
    omega
  · exact all_of_subset (ccData_subset _) hd
  · exact all_of_subset (List.drop_subset _ _) hd
  · intro hhead
    exact ccData_concat (digitsOf input) h6 hhead

/-- C1 counterexample: on input `"0612345678"` the code returns
`{cc: "6", in: "612345678"}`, and `cc ++ in = "6612345678"` is not the digit
sequence with the leading zeros of the extracted prefix removed
(`"612345678"`): the subscriber slice uses the stripped prefix length, so the
digit `6` is duplicated. -/
theorem normalize_concat_counterexample :
    normalizeNumber "0612345678" = some ⟨"6", "612345678"⟩ ∧
    ¬ ("6" : String).data ++ ("612345678" : String).data =
        specStripSegment (digitsOf "0612345678") := by
  decide

/-- C1 witness for `normalize_valid_amended` at `"+6281234567890"`. -/
theorem normalize_valid_amended_witness :
    ∃ nb : PhoneNumber, normalizeNumber "+6281234567890" = some nb ∧
      ¬ nb.cc = "" ∧ ¬ nb.inPart = "" ∧
      nb.cc.data.all Char.isDigit = true ∧ nb.inPart.data.all Char.isDigit = true ∧
      nb.inPart.data = (digitsOf "+6281234567890").drop nb.cc.data.length ∧
      ((digitsOf "+6281234567890").head? ≠ some '0' →
        nb.cc.data ++ nb.inPart.data = digitsOf "+6281234567890") :=
  normalize_valid_amended "+6281234567890" (by decide) (by decide) (by decide)

/-- C7: for every valid candidate the country code is the first 2 digits
when the length is at least 8 and the first digit otherwise, with leading
zeros stripped and a fallback to the single first digit when stripping
empties the prefix; and `normalizeNumber "+6281234567890"` is
`{cc: "62", in: "81234567890"}`. -/
theorem country_code_heuristic :
    (∀ input : String, (digitsOf input).all Char.isDigit = true →
      6 ≤ (digitsOf input).length → (digitsOf input).length ≤ 15 →
      ∃ nb : PhoneNumber, normalizeNumber input = some nb ∧
        nb.cc.data =
          (if ((if 8 ≤ (digitsOf input).length then (digitsOf input).take 2
                 else (digitsOf input).take 1).dropWhile (· == '0')) = []
           then (digitsOf input).take 1
           else (if 8 ≤ (digitsOf input).length then (digitsOf input).take 2
                 else (digitsOf input).take 1).dropWhile (· == '0'))) ∧
    normalizeNumber "+6281234567890" = some ⟨"62", "81234567890"⟩ := by
  constructor
  · intro input hd h6 h15
    refine ⟨_, normalizeNumber_spec input hd h6 h15, ?_⟩
    show ccData (digitsOf input) = _
    have hflip : (if (digitsOf input).length < 8 then (digitsOf input).take 1
        else (digitsOf input).take 2)
        = (if 8 ≤ (digitsOf input).length then (digitsOf input).take 2
           else (digitsOf input).take 1) := by
      by_cases h8 : (digitsOf input).length < 8
      · rw [if_pos h8, if_neg (by omega)]
      · rw [if_neg h8, if_pos (by omega)]
    simp only [ccData]
    rw [hflip]
    simp [List.isEmpty_iff]
  · decide

/-- C7 witness for `country_code_heuristic` at `"081234567"`. -/
theorem country_code_heuristic_witness :
    ∃ nb : PhoneNumber, normalizeNumber "081234567" = some nb ∧
      nb.cc.data =
        (if ((if 8 ≤ (digitsOf "081234567").length then (digitsOf "081234567").take 2
               else (digitsOf "081234567").take 1).dropWhile (· == '0')) = []
         then (digitsOf "081234567").take 1
         else (if 8 ≤ (digitsOf "081234567").length then (digitsOf "081234567").take 2
               else (digitsOf "081234567").take 1).dropWhile (· == '0')) :=
  country_code_heuristic.1 "081234567" (by decide) (by decide) (by decide)

/-! ### ResponseClassifier -/

/-- C2: classification applies the rules in order on the case-insensitively
matched body: banned markers first, then success markers, then the
4xx-with-auth-keyword rule, else NotBanned; and the four concrete cases:
body "Your account has been banned" with status 200 is Banned,
body "\"status\":\"ok\"" with status 200 is NotBanned, status 403 with body
"forbidden" is Banned, status 500 with an unrelated body is NotBanned. -/
theorem classify_rules :
    (∀ st text, bannedRe (lowerStr text).data = true →
      classifyResp st text = .classified true text st) ∧
    (∀ st text, bannedRe (lowerStr text).data = false →
      okRe (lowerStr text).data = true →
      classifyResp st text = .classified false text st) ∧
    (∀ st text, bannedRe (lowerStr text).data = false →
      okRe (lowerStr text).data = false →
      400 ≤ st → st < 500 → authRe (lowerStr text).data = true →
      classifyResp st text = .classified true text st) ∧
    (∀ st text, bannedRe (lowerStr text).data = false →
      okRe (lowerStr text).data = false →
      ¬ (400 ≤ st ∧ st < 500 ∧ authRe (lowerStr text).data = true) →
      classifyResp st text = .classified false text st) ∧
    classifyResp 200 "Your account has been banned" =
      .classified true "Your account has been banned" 200 ∧
    classifyResp 200 "\"status\":\"ok\"" = .classified false "\"status\":\"ok\"" 200 ∧
    classifyResp 403 "forbidden" = .classified true "forbidden" 403 ∧
    classifyResp 500 "internal server error" =
      .classified false "internal server error" 500 := by
  refine ⟨?_, ?_, ?_, ?_, by decide, by decide, by decide, by decide⟩
  · intro st text hb
    simp [classifyResp, hb]
  · intro st text hb hok
    simp [classifyResp, hb, hok]
  · intro st text hb hok h4 h5 ha
    simp [classifyResp, hb, hok, h4, h5, ha]
  · intro st text hb hok hno
    simp only [classifyResp, hb, hok, Bool.false_eq_true, if_false]
    by_cases h4 : 400 ≤ st
    · by_cases h5 : st < 500
      · have ha : authRe (lowerStr text).data = false := by
          cases hcase : authRe (lowerStr text).data with
          | false => rfl
          | true => exact absurd ⟨h4, h5, hcase⟩ hno
        simp [h4, h5, ha]
      · simp [h4, h5]
    · simp [h4]

/-- C2 witness for each conditional rule of `classify_rules`. -/
theorem classify_rules_witness :
    classifyResp 200 "user banned" = .classified true "user banned" 200 ∧
    classifyResp 200 "status is ok" = .classified false "status is ok" 200 ∧
    classifyResp 404 "unauthorized" = .classified true "unauthorized" 404 ∧
    classifyResp 503 "hello" = .classified false "hello" 503 :=
  ⟨classify_rules.1 200 "user banned" (by decide),
   classify_rules.2.1 200 "status is ok" (by decide) (by decide),
   classify_rules.2.2.1 404 "unauthorized" (by decide) (by decide) (by decide)
     (by decide) (by decide),
   classify_rules.2.2.2.1 503 "hello" (by decide) (by decide) (by decide)⟩

/-! ### RateLimiter -/

lemma mapGet_mapSet (m : RateMap) (k : String) (v : RateRec) :
    mapGet (mapSet m k v) k = some v := by
  induction m with
  | nil => simp [mapSet, mapGet]
  | cons hd t ih =>
    obtain ⟨k2, w⟩ := hd
    by_cases hk : k2 = k
    · simp [mapSet, hk, mapGet]
    · simp [mapSet, hk, mapGet, ih]

/-- Full characterization of a run of within-window calls for one key: while
the count is below the limit every call is allowed (incrementing the count),
afterwards every call is denied and the record stays put. -/
lemma runCalls_spec (limit : Nat) (ip : String) (t0 : Nat) :
    ∀ (ts : List Nat) (m : RateMap) (c : Nat),
      mapGet m ip = some ⟨c, t0⟩ → (∀ t ∈ ts, t - t0 < 60) → c ≤ limit →
      (runCalls limit ip ts m).1 =
        List.replicate (min ts.length (limit - c)) true ++
        List.replicate (ts.length - (limit - c)) false ∧
      mapGet (runCalls limit ip ts m).2 ip = some ⟨min limit (c + ts.length), t0⟩ := by
  intro ts
  induction ts with
  | nil =>
    intro m c hget _ hc
    constructor
    · simp [runCalls]
    · simpa [runCalls, Nat.min_eq_right hc] using hget
  | cons t ts ih =>
    intro m c hget hwin hc
    have hwt : t - t0 < 60 := hwin t (by simp)
    have hnotreset : ¬ 60 ≤ t - t0 := by omega
    by_cases hlt : c < limit
    · have hstep : allowedByRateLimit limit ip t m =
          (true, mapSet m ip ⟨c + 1, t0⟩) := by
        simp [allowedByRateLimit, hget, hnotreset, hlt]
      have hrec := ih (mapSet m ip ⟨c + 1, t0⟩) (c + 1)
        (mapGet_mapSet m ip ⟨c + 1, t0⟩)
        (fun x hx => hwin x (by simp [hx])) (by omega)
      refine ⟨?_, ?_⟩
      · rw [show (runCalls limit ip (t :: ts) m).1 =
            true :: (runCalls limit ip ts (mapSet m ip ⟨c + 1, t0⟩)).1 by
              simp [runCalls, hstep]]
        rw [hrec.1]
        rw [show min (t :: ts).length (limit - c) = min ts.length (limit - (c + 1)) + 1 by
              simp [List.length_cons]; omega,
            show (t :: ts).length - (limit - c) = ts.length - (limit - (c + 1)) by
              simp [List.length_cons]; omega]
        simp [List.replicate_succ]
      · rw [show (runCalls limit ip (t :: ts) m).2 =
            (runCalls limit ip ts (mapSet m ip ⟨c + 1, t0⟩)).2 by
              simp [runCalls, hstep]]
        rw [hrec.2]
        congr 2
        simp [List.length_cons]
        omega
    · have hceq : c = limit := by omega
      have hstep : allowedByRateLimit limit ip t m = (false, m) := by
        simp [allowedByRateLimit, hget, hnotreset, hlt]
      have hrec := ih m c hget (fun x hx => hwin x (by simp [hx])) hc
      refine ⟨?_, ?_⟩
      · rw [show (runCalls limit ip (t :: ts) m).1 =
            false :: (runCalls limit ip ts m).1 by simp [runCalls, hstep]]
        rw [hrec.1]
        rw [show min ts.length (limit - c) = 0 by omega,
            show min (t :: ts).length (limit - c) = 0 by omega,
            show ts.length - (limit - c) = ts.length by omega,
            show (t :: ts).length - (limit - c) = ts.length + 1 by
              simp [List.length_cons]; omega]
        simp [List.replicate_succ]
      · rw [show (runCalls limit ip (t :: ts) m).2 =
            (runCalls limit ip ts m).2 by simp [runCalls, hstep]]
        rw [hrec.2]
        congr 2
        simp [List.length_cons]
        omega

/-- C3: with window length 60 s and limit 30, a caller with no record making
31 calls inside one window gets 30 allows and then a deny; a call with no
record, or with a record at least a window old, resets the record to
`{count: 1, windowStart: now}` and is allowed. -/
theorem rateLimiter_window :
    (∀ (ip : String) (m : RateMap) (t0 : Nat) (rest : List Nat),
      mapGet m ip = none → rest.length = 30 → (∀ t ∈ rest, t - t0 < 60) →
      (runCalls 30 ip (t0 :: rest) m).1 = List.replicate 30 true ++ [false]) ∧
    (∀ (limit : Nat) (ip : String) (now : Nat) (m : RateMap),
      mapGet m ip = none →
      allowedByRateLimit limit ip now m = (true, mapSet m ip ⟨1, now⟩)) ∧
    (∀ (limit : Nat) (ip : String) (now : Nat) (m : RateMap) (c w : Nat),
      mapGet m ip = some ⟨c, w⟩ → 60 ≤ now - w →
      allowedByRateLimit limit ip now m = (true, mapSet m ip ⟨1, now⟩)) := by
  refine ⟨?_, ?_, ?_⟩
  · intro ip m t0 rest hnone hlen hwin
    have hstep : allowedByRateLimit 30 ip t0 m = (true, mapSet m ip ⟨1, t0⟩) := by
      simp [allowedByRateLimit, hnone]
    have hrec := runCalls_spec 30 ip t0 rest (mapSet m ip ⟨1, t0⟩) 1
      (mapGet_mapSet m ip ⟨1, t0⟩) hwin (by omega)
    rw [show (runCalls 30 ip (t0 :: rest) m).1 =
        true :: (runCalls 30 ip rest (mapSet m ip ⟨1, t0⟩)).1 by
          simp [runCalls, hstep]]
    rw [hrec.1, hlen]
    -- 30 allows then one deny
    decide
  · intro limit ip now m hnone
    simp [allowedByRateLimit, hnone]
  · intro limit ip now m c w hget hold
    simp [allowedByRateLimit, hget, hold]

/-- C3 witness: 31 calls at one instant from an empty map, a fresh-key call,
and a stale-record call. -/
theorem rateLimiter_window_witness :
    (runCalls 30 "1.2.3.4" (1000 :: List.replicate 30 1000) RateMap.empty).1 =
      List.replicate 30 true ++ [false] ∧
    allowedByRateLimit 30 "5.6.7.8" 77 RateMap.empty =
      (true, mapSet RateMap.empty "5.6.7.8" ⟨1, 77⟩) ∧
    allowedByRateLimit 30 "1.2.3.4" 1100 [("1.2.3.4", ⟨30, 1000⟩)] =
      (true, mapSet [("1.2.3.4", ⟨30, 1000⟩)] "1.2.3.4" ⟨1, 1100⟩) :=
  ⟨rateLimiter_window.1 "1.2.3.4" RateMap.empty 1000 (List.replicate 30 1000)
      rfl (by decide) (by decide),
   rateLimiter_window.2.1 30 "5.6.7.8" 77 RateMap.empty rfl,
   rateLimiter_window.2.2 30 "1.2.3.4" 1100 [("1.2.3.4", ⟨30, 1000⟩)] 30 1000
      rfl (by decide)⟩

/-! ### ProbeExecutor -/

lemma doRegisterCheck_ok_step (mr : Nat) (rand : Nat → Nat)
    (transport : Nat → Except String HttpResp) (nb : PhoneNumber)
    (pu : Option String) (r c : Nat) (resp : HttpResp)
    (hok : transport r = .ok resp) :
    doRegisterCheck mr rand transport nb pu r c =
      (classifyResp resp.status resp.text, [attemptAt rand nb pu c]) := by
  rw [doRegisterCheck, doRegisterCheckAux, hok]

lemma doRegisterCheck_error_step (mr : Nat) (rand : Nat → Nat)
    (transport : Nat → Except String HttpResp) (nb : PhoneNumber)
    (pu : Option String) (r c : Nat) (e : String)
    (herr : transport r = .error e) (hlt : r < mr) :
    doRegisterCheck mr rand transport nb pu r c =
      ((doRegisterCheck mr rand transport nb pu (r + 1) (c + 5)).1,
       attemptAt rand nb pu c ::
         (doRegisterCheck mr rand transport nb pu (r + 1) (c + 5)).2) := by
  have hf : mr - r = (mr - (r + 1)) + 1 := by omega
  rw [doRegisterCheck, hf, doRegisterCheckAux, herr]
  rfl

lemma doRegisterCheck_error_last (mr : Nat) (rand : Nat → Nat)
    (transport : Nat → Except String HttpResp) (nb : PhoneNumber)
    (pu : Option String) (r c : Nat) (e : String)
    (herr : transport r = .error e) (hge : ¬ r < mr) :
    doRegisterCheck mr rand transport nb pu r c =
      (.failure "network_error" e, [attemptAt rand nb pu c]) := by
  have hf : mr - r = 0 := by omega
  rw [doRegisterCheck, hf, doRegisterCheckAux, herr]

lemma classifyResp_ne_failure (st : Nat) (text e msg : String) :
    ¬ classifyResp st text = .failure e msg := by
  simp only [classifyResp]
  split
  · simp
  · split
    · simp
    · split
      · split <;> simp
      · simp

/-- An always-failing transport exhausts the budget: the result is the
`network_error` failure carrying the last attempt's error, after
`fuel + 1` attempts. -/
lemma doRegisterCheckAux_allFail (rand : Nat → Nat)
    (transport : Nat → Except String HttpResp) (nb : PhoneNumber)
    (pu : Option String) (es : Nat → String)
    (hall : ∀ k, transport k = .error (es k)) :
    ∀ fuel r c,
      (doRegisterCheckAux rand transport nb pu fuel r c).1 =
        .failure "network_error" (es (r + fuel)) ∧
      (doRegisterCheckAux rand transport nb pu fuel r c).2.length = fuel + 1 := by
  intro fuel
  induction fuel with
  | zero =>
    intro r c
    rw [doRegisterCheckAux, hall r]
    exact ⟨rfl, rfl⟩
  | succ f ih =>
    intro r c
    rw [doRegisterCheckAux, hall r]
    have ihh := ih (r + 1) (c + 5)
    refine ⟨?_, ?_⟩
    · show (doRegisterCheckAux rand transport nb pu f (r + 1) (c + 5)).1 = _
      rw [ihh.1]
      exact congrArg _ (congrArg es (by omega))
    · show (_ :: (doRegisterCheckAux rand transport nb pu f (r + 1) (c + 5)).2).length = _
      rw [List.length_cons, ihh.2]

/-- A `failure` result means every attempt in the budget saw a transport
error. -/
lemma doRegisterCheckAux_failure (rand : Nat → Nat)
    (transport : Nat → Except String HttpResp) (nb : PhoneNumber)
    (pu : Option String) :
    ∀ fuel r c e msg,
      (doRegisterCheckAux rand transport nb pu fuel r c).1 = .failure e msg →
      ∀ k, r ≤ k → k ≤ r + fuel → ∃ s, transport k = .error s := by
  intro fuel
  induction fuel with
  | zero =>
    intro r c e msg hfail k hrk hkm
    have hk : k = r := by omega
    subst hk
    rw [doRegisterCheckAux] at hfail
    cases htr : transport k with
    | ok resp =>
      rw [htr] at hfail
      exact absurd hfail (classifyResp_ne_failure _ _ _ _)
    | error s => exact ⟨s, rfl⟩
  | succ f ih =>
    intro r c e msg hfail k hrk hkm
    rw [doRegisterCheckAux] at hfail
    cases htr : transport r with
    | ok resp =>
      rw [htr] at hfail
      exact absurd hfail (classifyResp_ne_failure _ _ _ _)
    | error s =>
      by_cases hk : k = r
      · exact ⟨s, hk ▸ htr⟩
      · rw [htr] at hfail
        exact ih (r + 1) (c + 5) e msg hfail k (by omega) (by omega)

/-- The attempt trace: the `k`-th attempt (0-based) uses the identity drawn
at stream positions `c + 5k … c + 5k + 3` and the unchanged proxy. -/
lemma doRegisterCheckAux_trace (rand : Nat → Nat)
    (transport : Nat → Except String HttpResp) (nb : PhoneNumber)
    (pu : Option String) :
    ∀ fuel r c,
      (doRegisterCheckAux rand transport nb pu fuel r c).2 =
        (List.range (doRegisterCheckAux rand transport nb pu fuel r c).2.length).map
          (fun k => attemptAt rand nb pu (c + 5 * k)) := by
  intro fuel
  induction fuel with
  | zero =>
    intro r c
    rw [doRegisterCheckAux]
    cases htr : transport r <;> rfl
  | succ f ih =>
    intro r c
    rw [doRegisterCheckAux]
    cases htr : transport r with
    | ok resp => rfl
    | error s =>
      show attemptAt rand nb pu c ::
          (doRegisterCheckAux rand transport nb pu f (r + 1) (c + 5)).2 = _
      rw [show (attemptAt rand nb pu c ::
          (doRegisterCheckAux rand transport nb pu f (r + 1) (c + 5)).2).length =
          (doRegisterCheckAux rand transport nb pu f (r + 1) (c + 5)).2.length + 1
          from List.length_cons _ _]
      rw [List.range_succ_eq_map, List.map_cons]
      refine congrArg₂ _ (by simp) ?_
      rw [List.map_map]
      conv_lhs => rw [ih (r + 1) (c + 5)]
      refine List.map_congr_left ?_
      intro a _
      simp only [Function.comp_apply]
      exact congrArg _ (by omega)

/-- `doRegisterCheck`-level corollary of `doRegisterCheckAux_allFail`. -/
lemma doRegisterCheck_allFail (mr : Nat) (rand : Nat → Nat)
    (transport : Nat → Except String HttpResp) (nb : PhoneNumber)
    (pu : Option String) (es : Nat → String)
    (hall : ∀ k, transport k = .error (es k)) (c : Nat) :
    (doRegisterCheck mr rand transport nb pu 0 c).1 =
      .failure "network_error" (es mr) ∧
    (doRegisterCheck mr rand transport nb pu 0 c).2.length = mr + 1 := by
  have h := doRegisterCheckAux_allFail rand transport nb pu es hall (mr - 0) 0 c
  rw [doRegisterCheck]
  simpa using h

/-- The attempt trace of a whole probe. -/
lemma doRegisterCheck_trace (mr : Nat) (rand : Nat → Nat)
    (transport : Nat → Except String HttpResp) (nb : PhoneNumber)
    (pu : Option String) (r c : Nat) :
    (doRegisterCheck mr rand transport nb pu r c).2 =
      (List.range (doRegisterCheck mr rand transport nb pu r c).2.length).map
        (fun k => attemptAt rand nb pu (c + 5 * k)) :=
  doRegisterCheckAux_trace rand transport nb pu (mr - r) r c

/-- C4: when the transport fails on every attempt, `doRegisterCheck` makes
exactly `MAX_RETRIES + 1` attempts and returns the `network_error` failure,
and the handler surfaces it as a 502 rather than a classification. -/
theorem transport_exhaustion_502 :
    (∀ (maxRetries : Nat) (rand : Nat → Nat)
       (transport : Nat → Except String HttpResp) (numberObj : PhoneNumber)
       (proxyUrl : Option String) (ctr : Nat) (es : Nat → String),
      (∀ k, transport k = .error (es k)) →
      (doRegisterCheck maxRetries rand transport numberObj proxyUrl 0 ctr).2.length =
        maxRetries + 1 ∧
      (doRegisterCheck maxRetries rand transport numberObj proxyUrl 0 ctr).1 =
        .failure "network_error" (es maxRetries)) ∧
    (∀ (env : Env) (rand : Nat → Nat)
       (transport : Nat → Except String HttpResp) (req : Req) (now : Nat)
       (m : RateMap) (es : Nat → String),
      (∀ k, transport k = .error (es k)) →
      req.method = "POST" →
      (allowedByRateLimit env.rateLimit (ipOf req) now m).1 = true →
      ¬ numberOf req = "" →
      ∀ nb, normalizeNumber (numberOf req) = some nb →
      (handler env rand transport req now m).1 =
        .err 502 "proxy_or_network_failed" none
          (some (.failure "network_error" (es env.maxRetries)))) := by
  constructor
  · intro maxRetries rand transport numberObj proxyUrl ctr es hall
    have h := doRegisterCheck_allFail maxRetries rand transport numberObj proxyUrl
      es hall ctr
    exact ⟨h.2, h.1⟩
  · intro env rand transport req now m es hall hpost hallow hnum nb hnb
    simp only [handler]
    rw [if_neg (fun h => h hpost), if_neg (fun h => h hallow), if_neg hnum, hnb]
    simp only []
    rw [(doRegisterCheck_allFail env.maxRetries rand transport nb _ es hall _).1]

/-- C4 witness: a transport that always times out, a POST request with a
valid number, an empty rate map. -/
theorem transport_exhaustion_502_witness :
    (doRegisterCheck 2 (fun n => n) (fun _ => .error "fetch timeout")
        ⟨"62", "812345678"⟩ none 0 0).2.length = 2 + 1 ∧
    (doRegisterCheck 2 (fun n => n) (fun _ => .error "fetch timeout")
        ⟨"62", "812345678"⟩ none 0 0).1 =
      .failure "network_error" "fetch timeout" :=
  (transport_exhaustion_502.1 2 (fun n => n) (fun _ => .error "fetch timeout")
    ⟨"62", "812345678"⟩ none 0 (fun _ => "fetch timeout") (fun _ => rfl))

/-- C5: a syntactically valid HTTP response ends the probe at once — the
attempt list is a singleton and the result is the classification of that
response's status and body, whatever the status code; and a failure result
can only arise when every attempt up to the budget had a transport error. -/
theorem no_retry_on_response :
    (∀ (maxRetries : Nat) (rand : Nat → Nat)
       (transport : Nat → Except String HttpResp) (numberObj : PhoneNumber)
       (proxyUrl : Option String) (retries ctr : Nat) (resp : HttpResp),
      transport retries = .ok resp →
      doRegisterCheck maxRetries rand transport numberObj proxyUrl retries ctr =
        (classifyResp resp.status resp.text,
         [attemptAt rand numberObj proxyUrl ctr])) ∧
    (∀ (maxRetries : Nat) (rand : Nat → Nat)
       (transport : Nat → Except String HttpResp) (numberObj : PhoneNumber)
       (proxyUrl : Option String) (ctr : Nat) (e msg : String),
      (doRegisterCheck maxRetries rand transport numberObj proxyUrl 0 ctr).1 =
        .failure e msg →
      ∀ k, k ≤ maxRetries → ∃ s, transport k = .error s) :=
  ⟨fun mr rand tr nb pu r c resp hok =>
      doRegisterCheck_ok_step mr rand tr nb pu r c resp hok,
   fun mr rand tr nb pu c e msg hfail k hk =>
      doRegisterCheckAux_failure rand tr nb pu (mr - 0) 0 c e msg hfail k
        (Nat.zero_le _) (by omega)⟩

/-- C5 witness: a 503 response on the very first attempt is classified, not
retried. -/
theorem no_retry_on_response_witness :
    doRegisterCheck 2 (fun n => n) (fun _ => .ok ⟨503, "service unavailable"⟩)
        ⟨"62", "812345678"⟩ none 0 0 =
      (classifyResp 503 "service unavailable",
       [attemptAt (fun n => n) ⟨"62", "812345678"⟩ none 0]) :=
  no_retry_on_response.1 2 (fun n => n)
    (fun _ => .ok ⟨503, "service unavailable"⟩) ⟨"62", "812345678"⟩ none 0 0
    ⟨503, "service unavailable"⟩ rfl

/-- C6: every attempt of a probe, retries included, carries the same
`proxyUrl`, while the user agent, mcc, mnc and the body's `r` field are drawn
fresh from the random stream (positions `ctr0 + 5k … ctr0 + 5k + 3` for the
`k`-th attempt). -/
theorem proxy_fixed_identity_rotated (maxRetries : Nat) (rand : Nat → Nat)
    (transport : Nat → Except String HttpResp) (numberObj : PhoneNumber)
    (proxyUrl : Option String) (ctr0 k : Nat)
    (h : k < (doRegisterCheck maxRetries rand transport numberObj proxyUrl 0
      ctr0).2.length) :
    (doRegisterCheck maxRetries rand transport numberObj proxyUrl 0 ctr0).2[k]? =
      some ⟨pickRandom rand (ctr0 + 5 * k) UA_LIST,
            pickRandom rand (ctr0 + 5 * k + 1) MCC_OPTIONS,
            pickRandom rand (ctr0 + 5 * k + 2) MNC_OPTIONS,
            buildFormBody numberObj.cc numberObj.inPart "sms"
              (pickRandom rand (ctr0 + 5 * k + 1) MCC_OPTIONS)
              (pickRandom rand (ctr0 + 5 * k + 2) MNC_OPTIONS)
              (rand (ctr0 + 5 * k + 3) % 1000000),
            proxyUrl⟩ := by
  rw [doRegisterCheck_trace maxRetries rand transport numberObj proxyUrl 0 ctr0,
    List.getElem?_map, List.getElem?_range h]
  rfl

/-- C6 witness: with the identity random stream, a probe whose first attempt
times out and whose second succeeds; the second attempt (index 1, counter
6) re-rolls the identity and keeps the proxy. -/
theorem proxy_fixed_identity_rotated_witness :
    (doRegisterCheck 2 (fun n => n)
        (fun k => if k = 0 then .error "timeout" else .ok ⟨200, "hello"⟩)
        ⟨"62", "812345678"⟩ (some "http://proxy:8000") 0 1).2[1]? =
      some ⟨"WhatsApp/2.21.23 Android/11 Device/Samsung", "510", "10",
            "cc=62&in=812345678&method=sms&mcc=510&mnc=10&r=9",
            some "http://proxy:8000"⟩ :=
  proxy_fixed_identity_rotated 2 (fun n => n)
    (fun k => if k = 0 then .error "timeout" else .ok ⟨200, "hello"⟩)
    ⟨"62", "812345678"⟩ (some "http://proxy:8000") 1 1 (by decide)

/-! ### Handler -/

/-- Inversion of the handler's success path: a 200 reply carries the
classification of the probe run with the computed proxy choice, the `raw`
field gated by `EXPOSE_RAW`, and the proxy field reduced to `"used"` /
`"none"`. -/
lemma handler_ok_inv {env : Env} {rand : Nat → Nat}
    {transport : Nat → Except String HttpResp} {req : Req} {now : Nat}
    {m : RateMap} {n : String} {nb : PhoneNumber} {b : Bool} {st : Nat}
    {rawF : Option String} {pr : String} {m' : RateMap}
    (h : handler env rand transport req now m = (.ok n nb b st rawF pr, m')) :
    ∃ raw,
      (doRegisterCheck env.maxRetries rand transport nb
        (if 0 < (proxyList env).length then some (pickRandom rand 0 (proxyList env))
         else none) 0
        (if 0 < (proxyList env).length then 1 else 0)).1 = .classified b raw st ∧
      rawF = (if env.exposeRaw = some "1" then some raw else none) ∧
      pr = (if 0 < (proxyList env).length then "used" else "none") := by
  simp only [handler] at h
  split at h
  · simp at h
  · split at h
    · simp at h
    · split at h
      · simp at h
      · split at h
        · simp at h
        · rename_i normalized hnorm
          split at h
          · simp at h
          · rename_i b0 raw0 st0 hcls
            rw [Prod.mk.injEq, HResp.ok.injEq] at h
            obtain ⟨⟨h1, h2, h3, h4, h5, h6⟩, h7⟩ := h
            refine ⟨raw0, ?_, h5.symm, ?_⟩
            · rw [← h2, ← h3, ← h4]
              exact hcls
            · rw [← h6]
              by_cases hp : 0 < (proxyList env).length <;> simp [hp]

/-- C8: in a successful 200 reply, the `raw` field is the upstream response
body exactly when `EXPOSE_RAW` is `"1"`; with the flag absent or different
(the default), the field is undefined (`none`). -/
theorem raw_exposure_flag :
    ∀ (env : Env) (rand : Nat → Nat) (transport : Nat → Except String HttpResp)
      (req : Req) (now : Nat) (m : RateMap) (n : String) (nb : PhoneNumber)
      (b : Bool) (st : Nat) (rawF : Option String) (pr : String) (m' : RateMap),
      handler env rand transport req now m = (.ok n nb b st rawF pr, m') →
      (¬ env.exposeRaw = some "1" → rawF = none) ∧
      (env.exposeRaw = some "1" →
        ∃ raw, rawF = some raw ∧
          (doRegisterCheck env.maxRetries rand transport nb
            (if 0 < (proxyList env).length then some (pickRandom rand 0 (proxyList env))
             else none) 0
            (if 0 < (proxyList env).length then 1 else 0)).1 =
            .classified b raw st) := by
  intro env rand transport req now m n nb b st rawF pr m' h
  obtain ⟨raw, hcls, hraw, hpr⟩ := handler_ok_inv h
  constructor
  · intro hno
    rw [hraw, if_neg hno]
  · intro hyes
    exact ⟨raw, by rw [hraw, if_pos hyes], hcls⟩

/-- C8 witness: with `EXPOSE_RAW = "1"` the body is echoed. -/
theorem raw_exposure_flag_witness :
    (¬ (some "1" : Option String) = some "1" → (some "ok body" : Option String) = none) ∧
    ((some "1" : Option String) = some "1" →
      ∃ raw, (some "ok body" : Option String) = some raw ∧
        (doRegisterCheck 2 (fun n => n) (fun _ => .ok ⟨200, "ok body"⟩)
          ⟨"62", "812345678"⟩ none 0 0).1 = .classified false raw 200) :=
  raw_exposure_flag ⟨"", 30, 2, some "1"⟩ (fun n => n)
    (fun _ => .ok ⟨200, "ok body"⟩) ⟨"POST", none, none, some "+62812345678", none⟩
    0 RateMap.empty "+62812345678" ⟨"62", "812345678"⟩ false 200 (some "ok body")
    "none" [("unknown", ⟨1, 0⟩)] (by decide)

/-- C9: a non-POST request is answered 405 and the rate map is returned
untouched: no record is created or incremented for any caller. -/
theorem non_post_preserves_rate_state (env : Env) (rand : Nat → Nat)
    (transport : Nat → Except String HttpResp) (req : Req) (now : Nat)
    (m : RateMap) (h : ¬ req.method = "POST") :
    handler env rand transport req now m =
      (.err 405 "Method not allowed" none none, m) := by
  simp only [handler]
  rw [if_pos h]

/-- C9 witness: a GET request against a non-empty rate map. -/
theorem non_post_preserves_rate_state_witness :
    handler ⟨"", 30, 2, none⟩ (fun n => n) (fun _ => .error "down")
        ⟨"GET", none, none, some "+62812345678", none⟩ 50
        [("9.9.9.9", ⟨3, 20⟩)] =
      (.err 405 "Method not allowed" none none, [("9.9.9.9", ⟨3, 20⟩)]) :=
  non_post_preserves_rate_state ⟨"", 30, 2, none⟩ (fun n => n)
    (fun _ => .error "down") ⟨"GET", none, none, some "+62812345678", none⟩ 50
    [("9.9.9.9", ⟨3, 20⟩)] (by decide)

/-- The proxy field of a 200 reply depends only on whether the parsed pool is
empty. -/
lemma handler_proxy_field {env : Env} {rand : Nat → Nat}
    {transport : Nat → Except String HttpResp} {req : Req} {now : Nat}
    {m : RateMap} {n : String} {nb : PhoneNumber} {b : Bool} {st : Nat}
    {rawF : Option String} {pr : String} {m' : RateMap}
    (h : handler env rand transport req now m = (.ok n nb b st rawF pr, m')) :
    pr = (if proxyList env = [] then "none" else "used") := by
  obtain ⟨raw, _, _, hpr⟩ := handler_ok_inv h
  rw [hpr]
  by_cases hemp : proxyList env = []
  · rw [if_pos hemp, if_neg (by simp [hemp])]
  · rw [if_neg hemp, if_pos (List.length_pos.mpr hemp)]

/-- C10: the `proxy` field of a 200 reply is the literal `"used"` when the
pool is non-empty and `"none"` when it is empty — never the proxy URL — so
any two runs with non-empty pools carry identical proxy fields. -/
theorem proxy_field_constant :
    (∀ (env : Env) (rand : Nat → Nat) (transport : Nat → Except String HttpResp)
       (req : Req) (now : Nat) (m : RateMap) (n : String) (nb : PhoneNumber)
       (b : Bool) (st : Nat) (rawF : Option String) (pr : String) (m' : RateMap),
      handler env rand transport req now m = (.ok n nb b st rawF pr, m') →
      pr = (if proxyList env = [] then "none" else "used")) ∧
    (∀ (env₁ env₂ : Env) (rand₁ rand₂ : Nat → Nat)
       (transport₁ transport₂ : Nat → Except String HttpResp) (req₁ req₂ : Req)
       (now₁ now₂ : Nat) (m₁ m₂ : RateMap) (n₁ n₂ : String)
       (nb₁ nb₂ : PhoneNumber) (b₁ b₂ : Bool) (st₁ st₂ : Nat)
       (rawF₁ rawF₂ : Option String) (pr₁ pr₂ : String) (m₁' m₂' : RateMap),
      ¬ proxyList env₁ = [] → ¬ proxyList env₂ = [] →
      handler env₁ rand₁ transport₁ req₁ now₁ m₁ = (.ok n₁ nb₁ b₁ st₁ rawF₁ pr₁, m₁') →
      handler env₂ rand₂ transport₂ req₂ now₂ m₂ = (.ok n₂ nb₂ b₂ st₂ rawF₂ pr₂, m₂') →
      pr₁ = pr₂) := by
  constructor
  · intro env rand transport req now m n nb b st rawF pr m' h
    exact handler_proxy_field h
  · intro env₁ env₂ rand₁ rand₂ transport₁ transport₂ req₁ req₂ now₁ now₂ m₁ m₂
      n₁ n₂ nb₁ nb₂ b₁ b₂ st₁ st₂ rawF₁ rawF₂ pr₁ pr₂ m₁' m₂' hne₁ hne₂ h₁ h₂
    rw [handler_proxy_field h₁, handler_proxy_field h₂, if_neg hne₁, if_neg hne₂]

/-- C10 witness: one-proxy and two-proxy configurations both answer
`proxy = "used"`. -/
theorem proxy_field_constant_witness :
    ("used" : String) = (if proxyList ⟨"http://p1:1", 30, 2, none⟩ = []
      then "none" else "used") ∧ ("used" : String) = "used" :=
  ⟨proxy_field_constant.1 ⟨"http://p1:1", 30, 2, none⟩ (fun n => n)
      (fun _ => .ok ⟨200, "ok body"⟩) ⟨"POST", none, none, some "+62812345678", none⟩
      0 RateMap.empty "+62812345678" ⟨"62", "812345678"⟩ false 200 none "used"
      [("unknown", ⟨1, 0⟩)] (by decide),
   proxy_field_constant.2 ⟨"http://p1:1", 30, 2, none⟩
      ⟨"http://p2:2\nhttp://p3:3", 30, 2, none⟩ (fun n => n) (fun n => n)
      (fun _ => .ok ⟨200, "ok body"⟩) (fun _ => .ok ⟨200, "ok body"⟩)
      ⟨"POST", none, none, some "+62812345678", none⟩
      ⟨"POST", none, none, some "+62812345678", none⟩ 0 0 RateMap.empty
      RateMap.empty "+62812345678" "+62812345678" ⟨"62", "812345678"⟩
      ⟨"62", "812345678"⟩ false false 200 200 none none "used" "used"
      [("unknown", ⟨1, 0⟩)] [("unknown", ⟨1, 0⟩)] (by decide) (by decide)
      (by decide) (by decide)⟩

end CheckBanWa
